import Mathlib

/-!
Verification of the traefik-datadog sidecar (`src/sidecar/main.go`, converged
variant, plus the superseded OTLP middleware variant in `src/unnamed/part_001`).

Go strings are modelled as `List Char` (the inputs are ASCII log lines, so
byte indexing and rune indexing coincide for everything the claims touch).
Go `float64` quantities (durations in milliseconds, the apdex threshold and
score) are modelled as `ℚ`; `int`/`int64` as `Int`.
-/

namespace TraefikDatadog

/-- Go strings, modelled as lists of characters. -/
abbrev Str := List Char

/-- ASCII whitespace, as trimmed by Go's `strings.TrimSpace` (the Unicode
whitespace beyond ASCII never occurs in the claims' inputs). -/
def isSpaceChar (c : Char) : Bool :=
  c = ' ' || c = '\t' || c = '\n' || c = '\r' || c = '\x0b' || c = '\x0c'

/-- `strings.TrimSpace`: drop leading and trailing whitespace. -/
def trimSpace (s : Str) : Str :=
  ((s.dropWhile isSpaceChar).reverse.dropWhile isSpaceChar).reverse

/-- One decoded Traefik access-log record (`AccessLog`, main.go lines 19-34).
`duration` is in integer nanoseconds, statuses are `int`. -/
structure AccessLog where
  startUTC : Str := []
  duration : Int := 0
  clientHost : Str := []
  requestHost : Str := []
  requestAddr : Str := []
  requestMethod : Str := []
  requestPath : Str := []
  downstreamStatus : Int := 0
  originStatus : Int := 0
  routerName : Str := []
  serviceName : Str := []
deriving Repr, DecidableEq

/-- Sidecar configuration (`Config`, main.go lines 36-43); the fields the
processing pipeline reads. `apdexThreshold` is in seconds. -/
structure Config where
  serviceName : Str
  environment : Str
  version : Str
  apdexThreshold : ℚ
deriving Repr, DecidableEq

/-- `strconv.Itoa` (base-10 rendering of an `int`). -/
def itoa (n : Int) : Str := (toString n).data

/-- Hostname normalization (main.go lines 225-231): `RequestHost`, falling
back to `RequestAddr`, falling back to the literal `"unknown"`. -/
def normalizedHostname (a : AccessLog) : Str :=
  let h := a.requestHost
  let h := if h = [] then a.requestAddr else h
  if h = [] then "unknown".data else h

/-- Status-code normalization (main.go lines 233-236): `DownstreamStatus`,
falling back to `OriginStatus` when it is zero. -/
def normalizedStatus (a : AccessLog) : Int :=
  if a.downstreamStatus = 0 then a.originStatus else a.downstreamStatus

/-- `durationMs := float64(accessLog.Duration) / 1e6` (main.go line 239). -/
def durationMsOf (a : AccessLog) : ℚ := (a.duration : ℚ) / 1000000

/-- Apdex computation (main.go lines 243-248), on milliseconds: 1 when
`durationMs ≤ threshold*1000`, 1/2 when `durationMs ≤ threshold*4000`,
else 0 (`threshold` in seconds). -/
def apdexScore (threshold durationMs : ℚ) : ℚ :=
  if durationMs ≤ threshold * 1000 then 1
  else if durationMs ≤ threshold * 4000 then 1/2
  else 0

/-- One `strings.ReplaceAll s (single char) "_"` step. -/
def replaceAllChar (a b : Char) (s : Str) : Str :=
  s.map fun c => if c = a then b else c

/-- `sanitizeTagValue` (main.go lines 283-288): replace `,`, then `|`, then
newline, each with `_`. -/
def sanitizeTagValue (s : Str) : Str :=
  replaceAllChar '\n' '_' (replaceAllChar '|' '_' (replaceAllChar ',' '_' s))

/-- Pointwise form of the sanitizer: the three sequential single-character
replacements collapse to one character map. -/
def sanitizeChar (c : Char) : Char :=
  if c = ',' ∨ c = '|' ∨ c = '\n' then '_' else c

theorem sanitizeTagValue_eq_map (s : Str) :
    sanitizeTagValue s = s.map sanitizeChar := by
  induction s with
  | nil => rfl
  | cons c cs ih =>
    simp only [sanitizeTagValue, replaceAllChar, List.map_cons, List.map_map] at *
    refine congrArg₂ List.cons ?_ ih
    by_cases h1 : c = ','
    · simp [h1, sanitizeChar]
    · by_cases h2 : c = '|'
      · simp [h1, h2, sanitizeChar]
      · by_cases h3 : c = '\n'
        · simp [h1, h2, h3, sanitizeChar]
        · simp [h1, h2, h3, sanitizeChar]

/-- The tag set attached to every metric (main.go lines 250-258), in source
order. -/
def processTags (cfg : Config) (hostname method statusCodeStr : Str) : List Str :=
  [ "peer.hostname:".data ++ sanitizeTagValue hostname,
    "http.status_code:".data ++ statusCodeStr,
    "resource_name:".data ++ sanitizeTagValue hostname,
    "http.method:".data ++ sanitizeTagValue method,
    "service:".data ++ sanitizeTagValue cfg.serviceName,
    "env:".data ++ sanitizeTagValue cfg.environment,
    "version:".data ++ sanitizeTagValue cfg.version ]

/-- Go's integer truncation `int64(f)` on a `float64`: round toward zero. -/
def truncInt (q : ℚ) : Int :=
  if 0 ≤ q then ⌊q⌋ else ⌈q⌉

/-- Model of `fmt.Sprintf "%.2f"` on the rational embedding of a `float64`:
the value rounded to hundredths, rendered with exactly two fractional
digits (rounding half away from zero; the claims never depend on the tie
rule of binary-float rendering). -/
def fmt2 (q : ℚ) : Str :=
  let sign : Str := if q < 0 then "-".data else []
  let n : ℕ := ⌊|q| * 100 + 1/2⌋.toNat
  sign ++ (toString (n / 100)).data ++ ".".data ++
    (if n % 100 < 10 then "0".data else []) ++ (toString (n % 100)).data

/-- `strings.Join tags ","`. -/
def joinTags (tags : List Str) : Str := List.intercalate ",".data tags

/-- The five unconditional DogStatsD lines built by `sendMetrics`
(main.go lines 291-297), in source order. -/
def baseMetrics (statusCode : Str) (durationMs apdex : ℚ) (tags : List Str) :
    List Str :=
  [ "trace.traefik.request.hits:1|c|#".data ++ joinTags tags,
    "trace.traefik.request.hits.by_http_status:1|c|#".data ++ joinTags tags
      ++ ",status:".data ++ statusCode,
    "trace.traefik.request.duration:".data ++ fmt2 durationMs ++ "|h|#".data
      ++ joinTags tags,
    "trace.traefik.request.duration.by_http_status:".data ++ fmt2 durationMs
      ++ "|h|#".data ++ joinTags tags ++ ",status:".data ++ statusCode,
    "trace.traefik.request.apdex:".data ++ fmt2 apdex ++ "|g|#".data
      ++ joinTags tags ]

/-- The two error-counter lines appended when `isError` (main.go lines
299-304). -/
def errorMetrics (statusCode : Str) (tags : List Str) : List Str :=
  [ "trace.traefik.request.errors:1|c|#".data ++ joinTags tags,
    "trace.traefik.request.errors.by_http_status:1|c|#".data ++ joinTags tags
      ++ ",status:".data ++ statusCode ]

/-- `sendMetrics` (main.go lines 290-312): the sequence of DogStatsD lines
written to the UDP socket, one datagram each. -/
def sendMetrics (statusCode : Str) (durationMs : ℚ) (isErrorFlag : Bool)
    (apdex : ℚ) (tags : List Str) : List Str :=
  baseMetrics statusCode durationMs apdex tags
    ++ (if isErrorFlag then errorMetrics statusCode tags else [])

/-- The shape `name:value|type|#tag1,tag2,...` of every emitted line. -/
def metricLine (name value mtype : Str) (tags : List Str) : Str :=
  name ++ ":".data ++ value ++ "|".data ++ mtype ++ "|#".data ++ joinTags tags

/-- Tag values attached to a native-tracer span via `span.SetTag`. -/
inductive TagVal
  | str (s : Str)
  | int (n : Int)
  | bool (b : Bool)
deriving Repr, DecidableEq

/-- A span produced by the dd-trace-go client API, as far as the sidecar
sets it: resource name, type, start time, finish time, and the `SetTag`
calls in order. Times are integer Unix nanoseconds; the whole of
`sendTraceNative` is modelled as executing at the single instant `now`
(so `span.Finish()` stamps `now` as the end time). -/
structure NativeSpan where
  opName : Str
  resource : Str
  spanType : Str
  startNano : Int
  finishNano : Int
  tags : List (Str × TagVal)
deriving Repr, DecidableEq

/-- `sendTraceNative` (main.go lines 314-339). The start time is
`now − time.Duration(durationMs)*time.Millisecond`: Go truncates the
`float64` milliseconds toward zero before scaling to nanoseconds. -/
def sendTraceNative (a : AccessLog) (hostname : Str) (statusCode : Int)
    (durationMs : ℚ) (now : Int) : NativeSpan :=
  { opName := "traefik.request".data
    resource := hostname
    spanType := "web".data
    startNano := now - truncInt durationMs * 1000000
    finishNano := now
    tags :=
      [ ("http.method".data, .str a.requestMethod),
        ("http.url".data, .str a.requestPath),
        ("http.status_code".data, .int statusCode),
        ("http.host".data, .str hostname),
        ("peer.hostname".data, .str hostname) ]
      ++ (if 400 ≤ statusCode then
            [ ("error".data, .bool true),
              ("error.type".data,
                .str (if 500 ≤ statusCode then "server_error".data
                      else "client_error".data)) ]
          else []) }

/-- Attribute values of the OTLP JSON payload (part_001). -/
inductive AttrVal
  | str (s : Str)
  | int (s : Str)
  | double (q : ℚ)
deriving Repr, DecidableEq

/-- The single span of the OTLP trace payload built by `sendTrace`
(src/unnamed/part_001 lines 194-266): name, trace/span ids, start and end
Unix nanoseconds, attributes in order, and the literal status code field. -/
structure OtlpSpan where
  spanName : Str
  startNano : Int
  endNano : Int
  attributes : List (Str × AttrVal)
  statusCode : Int
deriving Repr, DecidableEq

/-- `sendTrace` (src/unnamed/part_001 lines 194-241):
`endNano = startNano + int64(durationMs*1e6)` and `"status": {"code": 0}`
unconditionally. -/
def sendTraceOtlp (serviceName environment version hostname method url : Str)
    (statusCode : Int) (startNano : Int) (durationMs : ℚ) : OtlpSpan :=
  { spanName := hostname
    startNano := startNano
    endNano := startNano + truncInt (durationMs * 1000000)
    attributes :=
      [ ("http.method".data, .str method),
        ("http.url".data, .str url),
        ("peer.hostname".data, .str hostname),
        ("resource_name".data, .str hostname),
        ("http.status_code".data, .int (itoa statusCode)),
        ("http.request.duration".data, .double durationMs),
        ("service".data, .str serviceName),
        ("env".data, .str environment),
        ("version".data, .str version) ]
    statusCode := 0 }

/-- `truncate` (main.go lines 276-281): identity when `len s ≤ max`, else
the first `max` characters followed by `"..."`. -/
def truncate (s : Str) (max : ℕ) : Str :=
  if s.length ≤ max then s else s.take max ++ "...".data

/-- `getEnv` (main.go lines 341-346): the environment is a partial map from
keys to values, and `os.Getenv` returns `""` for an unset key, so a key set
to the empty string is indistinguishable from an unset one. -/
def getEnv (env : Str → Option Str) (key defaultValue : Str) : Str :=
  let value := (env key).getD []
  if value ≠ [] then value else defaultValue

/-- Everything `processLogLine` (main.go lines 224-274) derives from one
record, including the DogStatsD lines it sends. -/
structure ProcessOutput where
  hostname : Str
  statusCode : Int
  durationMs : ℚ
  isErrorFlag : Bool
  apdex : ℚ
  tags : List Str
  metrics : List Str
deriving Repr, DecidableEq

/-- `processLogLine` (main.go lines 224-274): normalize fields, compute
apdex and the error flag, build the tag set, and send the metrics. The
trace span is dispatched separately (see `traceTaskBoundary`). -/
def processLogLine (cfg : Config) (a : AccessLog) : ProcessOutput :=
  let hostname := normalizedHostname a
  let statusCode := normalizedStatus a
  let statusCodeStr := itoa statusCode
  let durationMs := durationMsOf a
  let isErrorFlag := decide (400 ≤ statusCode)
  let apdex := apdexScore cfg.apdexThreshold durationMs
  let tags := processTags cfg hostname a.requestMethod statusCodeStr
  { hostname := hostname, statusCode := statusCode, durationMs := durationMs,
    isErrorFlag := isErrorFlag, apdex := apdex, tags := tags,
    metrics := sendMetrics statusCodeStr durationMs isErrorFlag apdex tags }

/-- Observable per-line outcome of the reading loops (main.go lines 84-97
and 206-221): either the diagnostic written for an undecodable line (it
carries `truncate line 80`), or the metrics of a processed record. -/
inductive Event
  | diag (truncated : Str)
  | record (metrics : List Str)
deriving Repr, DecidableEq

/-- One iteration of the line-processing loop: trim, skip empty lines,
decode (the JSON decoder is the external `json.Unmarshal`, passed in as
`decode`), log-and-skip on failure, process on success. -/
def processLines (decode : Str → Option AccessLog) (cfg : Config) :
    List Str → List Event
  | [] => []
  | line :: rest =>
      let l := trimSpace line
      if l = [] then processLines decode cfg rest
      else
        match decode l with
        | none => .diag (truncate l 80) :: processLines decode cfg rest
        | some a =>
            .record (processLogLine cfg a).metrics :: processLines decode cfg rest

/-- The recovery log line of the detached trace goroutine
(main.go line 269). -/
def recoverMsg (p : Str) : Str :=
  "sendTraceNative panic recovered: ".data ++ p

/-- What a detached trace-submission task leaves behind: its log lines and
whichever panic escaped its boundary (none, if recovery works). -/
structure DetachedResult where
  logs : List Str
  escaped : Option Str
deriving Repr, DecidableEq

/-- The goroutine body of main.go lines 266-273: run the trace submission
(an arbitrary computation that either returns or panics, modelled as
`Except`); `defer`+`recover` turns any panic into a log line and lets the
task return normally. -/
def traceTaskBoundary (body : Except Str Unit) : DetachedResult :=
  match body with
  | .ok _ => { logs := [], escaped := none }
  | .error p => { logs := [recoverMsg p], escaped := none }

/-- The loop with its detached trace tasks made explicit: the `k`-th
processed record spawns a task whose outcome is `faults k` (any panic
behaviour whatsoever). Returns the main loop's events and the detached
results. -/
def runWithTraces (decode : Str → Option AccessLog) (cfg : Config)
    (faults : ℕ → Except Str Unit) :
    List Str → ℕ → List Event × List DetachedResult
  | [], _ => ([], [])
  | line :: rest, k =>
      let l := trimSpace line
      if l = [] then runWithTraces decode cfg faults rest k
      else
        match decode l with
        | none =>
            let r := runWithTraces decode cfg faults rest k
            (.diag (truncate l 80) :: r.1, r.2)
        | some a =>
            let r := runWithTraces decode cfg faults rest (k + 1)
            (.record (processLogLine cfg a).metrics :: r.1,
             traceTaskBoundary (faults k) :: r.2)

/-- Reader-loop state of `tailFile` (main.go lines 143-221): the Go local
`partialLine` and the size observed at the last stat. -/
structure TailState where
  pendingLine : Str
  lastSize : Int
deriving Repr, DecidableEq

/-- What one `reader.ReadString('\n')`-driven iteration of the tail loop
observes: a complete line (error nil), EOF after reading `frag` followed by
a `file.Stat()` outcome (`none` = stat error), or a non-EOF read error. -/
inductive TailEvent
  | fullLine (s : Str)
  | eofStat (frag : Str) (statResult : Option Int)
  | readErr
deriving Repr, DecidableEq

/-- The externally visible action of one tail-loop iteration. `reopen true`
means: close the file, reopen the path at offset 0 with a fresh reader, and
the buffered pending line was discarded; `reopen false` keeps it. -/
inductive TailAction
  | deliver (line : Str)
  | skip
  | reopen (discardPending : Bool)
deriving Repr, DecidableEq

/-- One iteration of the tail loop (main.go lines 146-221):
complete line → prepend the pending fragment, trim, deliver if nonempty
(lines 206-220); EOF → append the fragment to the pending line, then stat:
stat error reopens keeping the fragment and zeroing `lastSize` (lines
154-168), a size smaller than `lastSize` (truncation/rotation) reopens from
the start, zeroes `lastSize` and clears the pending line (lines 170-184),
otherwise record the size and poll again (lines 185-188);
non-EOF read error → reopen, zero `lastSize`, clear the pending line
(lines 191-203). -/
def tailStep (st : TailState) (e : TailEvent) : TailState × TailAction :=
  match e with
  | .fullLine s =>
      let full := trimSpace (st.pendingLine ++ s)
      (⟨[], st.lastSize⟩, if full = [] then .skip else .deliver full)
  | .eofStat frag statResult =>
      let pending := st.pendingLine ++ frag
      match statResult with
      | none => (⟨pending, 0⟩, .reopen false)
      | some currentSize =>
          if currentSize < st.lastSize then (⟨[], 0⟩, .reopen true)
          else (⟨pending, currentSize⟩, .skip)
  | .readErr => (⟨[], 0⟩, .reopen true)

/-- Iterate `tailStep` over a sequence of observations. -/
def tailRun (st : TailState) : List TailEvent → List TailAction
  | [] => []
  | e :: rest =>
      let r := tailStep st e
      r.2 :: tailRun r.1 rest

/-! ## Shared helper lemmas -/

theorem sanitizeChar_fixpoint (c : Char) : sanitizeChar (sanitizeChar c) = sanitizeChar c := by
  by_cases h : c = ',' ∨ c = '|' ∨ c = '\n' <;> simp [sanitizeChar, h]

theorem sanitizeChar_ne_delims (c : Char) :
    sanitizeChar c ≠ ',' ∧ sanitizeChar c ≠ '|' ∧ sanitizeChar c ≠ '\n' := by
  by_cases h : c = ',' ∨ c = '|' ∨ c = '\n' <;> simp [sanitizeChar, h]
  tauto

/-! ## Example records used by witnesses and counterexamples -/

/-- A record with `DownstreamStatus = 0`, `OriginStatus = 502` and an empty
`RequestHost` but a request address (spec's fallback examples). -/
def exRecord502 : AccessLog :=
  { requestAddr := "10.0.0.1".data, downstreamStatus := 0, originStatus := 502 }

/-! ## Claims -/

/-- C4: the field normalizer is a pure total function applying the fallback
rules: the normalized hostname is `RequestHost` if non-empty, else
`RequestAddr` if non-empty, else `"unknown"`; the normalized status code is
`DownstreamStatus` if non-zero, else `OriginStatus` (0 when both are 0); in
particular `DownstreamStatus=0, OriginStatus=502` normalizes to 502. -/
theorem normalizer_fallback (a : AccessLog) :
    (a.requestHost ≠ [] → normalizedHostname a = a.requestHost)
    ∧ (a.requestHost = [] → a.requestAddr ≠ [] → normalizedHostname a = a.requestAddr)
    ∧ (a.requestHost = [] → a.requestAddr = [] → normalizedHostname a = "unknown".data)
    ∧ (a.downstreamStatus ≠ 0 → normalizedStatus a = a.downstreamStatus)
    ∧ (a.downstreamStatus = 0 → normalizedStatus a = a.originStatus)
    ∧ normalizedStatus exRecord502 = 502 := by
  refine ⟨?_, ?_, ?_, ?_, ?_, by decide⟩ <;> intro h
  · simp [normalizedHostname, h]
  · intro h2; simp [normalizedHostname, h, h2]
  · intro h2; simp [normalizedHostname, h, h2]
  · simp [normalizedStatus, h]
  · simp [normalizedStatus, h]

/-- Witness for `normalizer_fallback`: a record with an empty `RequestHost`,
`RequestAddr = "10.0.0.1"`, `DownstreamStatus = 0` and `OriginStatus = 502`
normalizes to hostname `"10.0.0.1"` and status 502; a record with both host
fields empty normalizes to `"unknown"`. -/
theorem normalizer_fallback_witness :
    normalizedHostname exRecord502 = "10.0.0.1".data
    ∧ normalizedStatus exRecord502 = 502
    ∧ normalizedHostname {} = "unknown".data :=
  ⟨(normalizer_fallback exRecord502).2.1 rfl (by decide),
   (normalizer_fallback exRecord502).2.2.2.2.1 rfl,
   (normalizer_fallback {}).2.2.1 rfl rfl⟩

/-- C10: `getEnv` treats a variable set to the empty string exactly like an
unset one — it returns the default whenever `os.Getenv` yields `""`
(whether the key is absent or bound to the empty string), and the
variable's value otherwise. -/
theorem getEnv_empty_like_unset (env : Str → Option Str) (key defaultValue : Str) :
    (env key = none → getEnv env key defaultValue = defaultValue)
    ∧ (env key = some [] → getEnv env key defaultValue = defaultValue)
    ∧ (∀ v, env key = some v → v ≠ [] → getEnv env key defaultValue = v) := by
  refine ⟨fun h => ?_, fun h => ?_, fun v h hv => ?_⟩
  · simp [getEnv, h]
  · simp [getEnv, h]
  · simp [getEnv, h, hv]

/-- Witness for `getEnv_empty_like_unset`: an unset key and a key bound to
`""` both yield the default `"dflt"`, while a key bound to `"x"` yields
`"x"`. -/
theorem getEnv_empty_like_unset_witness :
    getEnv (fun _ => none) "K".data "dflt".data = "dflt".data
    ∧ getEnv (fun _ => some []) "K".data "dflt".data = "dflt".data
    ∧ getEnv (fun _ => some ['x']) "K".data "dflt".data = ['x'] :=
  ⟨(getEnv_empty_like_unset (fun _ => none) "K".data "dflt".data).1 rfl,
   (getEnv_empty_like_unset (fun _ => some []) "K".data "dflt".data).2.1 rfl,
   (getEnv_empty_like_unset (fun _ => some ['x']) "K".data "dflt".data).2.2
     ['x'] rfl (by decide)⟩

/-- C2: the apdex score is a pure function of duration and threshold with
range {0, 1/2, 1}: 1 when the duration (seconds) is at most the threshold,
1/2 when it is at most 4x the threshold, else 0; with the default threshold
0.5 s, 0.3 s scores 1, 1.5 s scores 1/2, 3 s scores 0. -/
theorem apdexScore_range_and_cases (th : ℚ) (a : AccessLog) :
    (apdexScore th (durationMsOf a) = 0 ∨ apdexScore th (durationMsOf a) = 1/2
      ∨ apdexScore th (durationMsOf a) = 1)
    ∧ ((a.duration : ℚ) / 1000000000 ≤ th → apdexScore th (durationMsOf a) = 1)
    ∧ (th < (a.duration : ℚ) / 1000000000 → (a.duration : ℚ) / 1000000000 ≤ 4 * th →
        apdexScore th (durationMsOf a) = 1/2)
    ∧ (th < (a.duration : ℚ) / 1000000000 → 4 * th < (a.duration : ℚ) / 1000000000 →
        apdexScore th (durationMsOf a) = 0)
    ∧ apdexScore (1/2) (durationMsOf { duration := 300000000 }) = 1
    ∧ apdexScore (1/2) (durationMsOf { duration := 1500000000 }) = 1/2
    ∧ apdexScore (1/2) (durationMsOf { duration := 3000000000 }) = 0 := by
  have hsec : durationMsOf a = ((a.duration : ℚ) / 1000000000) * 1000 := by
    unfold durationMsOf; ring
  refine ⟨?_, fun h => ?_, fun h1 h2 => ?_, fun h1 h => ?_,
    by norm_num [apdexScore, durationMsOf],
    by norm_num [apdexScore, durationMsOf],
    by norm_num [apdexScore, durationMsOf]⟩
  · unfold apdexScore
    split
    · tauto
    · split <;> tauto
  · have : durationMsOf a ≤ th * 1000 := by
      rw [hsec]; exact mul_le_mul_of_nonneg_right h (by norm_num)
    simp [apdexScore, this]
  · have hgt : ¬ durationMsOf a ≤ th * 1000 := by
      rw [hsec]; push_neg
      exact mul_lt_mul_of_pos_right h1 (by norm_num)
    have hle : durationMsOf a ≤ th * 4000 := by
      rw [hsec]
      calc (a.duration : ℚ) / 1000000000 * 1000
          ≤ (4 * th) * 1000 := mul_le_mul_of_nonneg_right h2 (by norm_num)
        _ = th * 4000 := by ring
    simp [apdexScore, hgt, hle]
  · have hgt : ¬ durationMsOf a ≤ th * 4000 := by
      rw [hsec]; push_neg
      calc th * 4000 = (4 * th) * 1000 := by ring
        _ < (a.duration : ℚ) / 1000000000 * 1000 :=
            mul_lt_mul_of_pos_right h (by norm_num)
    have hgt1 : ¬ durationMsOf a ≤ th * 1000 := by
      rw [hsec]; push_neg
      exact mul_lt_mul_of_pos_right h1 (by norm_num)
    simp [apdexScore, hgt, hgt1]

/-- Witness for `apdexScore_range_and_cases`: with threshold 0.5 s, a
3-second request (4x threshold exceeded) scores 0, and a 0.3-second
request scores 1. -/
theorem apdexScore_range_and_cases_witness :
    apdexScore (1/2) (durationMsOf { duration := 3000000000 }) = 0
    ∧ apdexScore (1/2) (durationMsOf { duration := 300000000 }) = 1 :=
  ⟨(apdexScore_range_and_cases (1/2) { duration := 3000000000 }).2.2.2.1
      (by norm_num) (by norm_num),
   (apdexScore_range_and_cases (1/2) { duration := 300000000 }).2.1
      (by norm_num)⟩

theorem digitChar_sanitize (n : ℕ) : sanitizeChar (Nat.digitChar n) = Nat.digitChar n := by
  match n with
  | 0 | 1 | 2 | 3 | 4 | 5 | 6 | 7 | 8 | 9 | 10 | 11 | 12 | 13 | 14 | 15 => decide
  | m + 16 =>
      have h : Nat.digitChar (m + 16) = '*' := by
        unfold Nat.digitChar
        repeat rw [if_neg (by omega)]
      rw [h]; decide

theorem toDigitsCore_sanitize (b : ℕ) :
    ∀ (f n : ℕ) (acc : Str), acc.map sanitizeChar = acc →
      (Nat.toDigitsCore b f n acc).map sanitizeChar = Nat.toDigitsCore b f n acc := by
  intro f
  induction f with
  | zero => intro n acc hacc; simpa [Nat.toDigitsCore] using hacc
  | succ f ih =>
      intro n acc hacc
      simp only [Nat.toDigitsCore]
      split
      · simp [digitChar_sanitize, hacc]
      · exact ih _ _ (by simp [digitChar_sanitize, hacc])

theorem natRepr_sanitize (n : ℕ) :
    ((Nat.repr n).data).map sanitizeChar = (Nat.repr n).data :=
  toDigitsCore_sanitize 10 (n + 1) n [] rfl

/-- The status-code tag value `strconv.Itoa(statusCode)` is inserted into
the tag set without an explicit sanitizer call (main.go line 252); it is
nevertheless always a fixed point of the sanitizer, since a base-10 integer
rendering contains no comma, pipe or newline. -/
theorem itoa_sanitize (n : Int) : sanitizeTagValue (itoa n) = itoa n := by
  rw [sanitizeTagValue_eq_map]
  cases n with
  | ofNat m => exact natRepr_sanitize m
  | negSucc m =>
      show (('-' :: (Nat.repr (m + 1)).data).map sanitizeChar) = _
      simp only [List.map_cons, natRepr_sanitize]
      rfl

/-- C5: every tag value passed through the sanitizer has each occurrence of
comma, pipe and newline replaced by an underscore (the three sequential
`strings.ReplaceAll` calls act as one pointwise character replacement);
the status-code value, inserted without a sanitizer call, is always a fixed
point of that replacement; and the method value `"GET,evil|tag"` appears in
the emitted tag set as `"http.method:GET_evil_tag"`. -/
theorem sanitizeTagValue_replaces_delimiters :
    (∀ s : Str, sanitizeTagValue s = s.map sanitizeChar)
    ∧ (∀ n : Int, sanitizeTagValue (itoa n) = itoa n)
    ∧ sanitizeTagValue "GET,evil|tag".data = "GET_evil_tag".data
    ∧ ∀ (cfg : Config) (hostname statusCodeStr : Str),
        "http.method:GET_evil_tag".data
          ∈ processTags cfg hostname "GET,evil|tag".data statusCodeStr := by
  refine ⟨sanitizeTagValue_eq_map, itoa_sanitize, by decide,
    fun cfg hostname statusCodeStr => ?_⟩
  have h : "http.method:GET_evil_tag".data
      = "http.method:".data ++ sanitizeTagValue "GET,evil|tag".data := by decide
  rw [h]
  simp [processTags]

/-- C9: tag-value sanitization is idempotent, and its output never contains
a comma, pipe or newline character. -/
theorem sanitizeTagValue_idempotent_no_delims (s : Str) :
    sanitizeTagValue (sanitizeTagValue s) = sanitizeTagValue s
    ∧ ',' ∉ sanitizeTagValue s ∧ '|' ∉ sanitizeTagValue s
    ∧ '\n' ∉ sanitizeTagValue s := by
  have hmap := sanitizeTagValue_eq_map
  refine ⟨?_, ?_, ?_, ?_⟩
  · rw [hmap, hmap, List.map_map]
    exact List.map_congr_left fun c _ => sanitizeChar_fixpoint c
  all_goals
    rw [hmap]
    intro hmem
    rcases List.mem_map.mp hmem with ⟨c, _, hc⟩
  · exact (sanitizeChar_ne_delims c).1 hc
  · exact (sanitizeChar_ne_delims c).2.1 hc
  · exact (sanitizeChar_ne_delims c).2.2 hc

/-- Witness for `sanitizeTagValue_idempotent_no_delims`: sanitizing the
already-sanitized `"a,b|c"` changes nothing, and its output contains no
delimiter. -/
theorem sanitizeTagValue_idempotent_no_delims_witness :
    sanitizeTagValue (sanitizeTagValue "a,b|c".data) = sanitizeTagValue "a,b|c".data
    ∧ ',' ∉ sanitizeTagValue "a,b|c".data :=
  ⟨(sanitizeTagValue_idempotent_no_delims "a,b|c".data).1,
   (sanitizeTagValue_idempotent_no_delims "a,b|c".data).2.1⟩

/-- C1: when the tail loop observes at EOF that the file has shrunk since
the last observation (`currentSize < lastSize`), it reopens the path from
the beginning, zeroes its size tracking and discards the buffered partial
line (`reopen true`); the same holds for a non-EOF read error; consequently
every action after such an event equals the corresponding action of a run
started from the pristine state `⟨[], 0⟩` — a fragment buffered before the
rotation/truncation or read error is never concatenated with content read
after the reopen. -/
theorem tail_truncation_discards_fragment (st : TailState) (frag : Str)
    (currentSize : Int) (post : List TailEvent)
    (hshrink : currentSize < st.lastSize) :
    tailStep st (.eofStat frag (some currentSize)) = (⟨[], 0⟩, .reopen true)
    ∧ tailRun st (.eofStat frag (some currentSize) :: post)
        = .reopen true :: tailRun ⟨[], 0⟩ post
    ∧ (∀ st2 : TailState,
        tailStep st2 .readErr = (⟨[], 0⟩, .reopen true)
        ∧ tailRun st2 (.readErr :: post) = .reopen true :: tailRun ⟨[], 0⟩ post) := by
  have hstep : tailStep st (.eofStat frag (some currentSize)) = (⟨[], 0⟩, .reopen true) := by
    simp [tailStep, hshrink]
  refine ⟨hstep, ?_, fun st2 => ⟨rfl, ?_⟩⟩
  · simp [tailRun, hstep]
  · simp [tailRun, tailStep]

/-- Witness for `tail_truncation_discards_fragment`: a reader holding the
buffered fragment `"abc"` with last observed size 10 sees the file shrink
to size 3 mid-fragment; the loop reopens discarding the fragment, and the
following complete line `"xyz"` is delivered exactly as from a fresh
reader — without the `"abc"` fragment prepended. -/
theorem tail_truncation_discards_fragment_witness :
    (3 : Int) < (10 : Int)
    ∧ tailStep ⟨"abc".data, 10⟩ (.eofStat "de".data (some 3)) = (⟨[], 0⟩, .reopen true)
    ∧ tailRun ⟨"abc".data, 10⟩ [.eofStat "de".data (some 3), .fullLine "xyz\n".data]
        = [.reopen true, .deliver "xyz".data]
    ∧ tailRun ⟨[], 0⟩ [.fullLine "xyz\n".data] = [.deliver "xyz".data] := by
  have h := tail_truncation_discards_fragment ⟨"abc".data, 10⟩ "de".data 3
    [.fullLine "xyz\n".data] (by decide)
  have htail : tailRun (⟨[], 0⟩ : TailState) [.fullLine "xyz\n".data]
      = [.deliver "xyz".data] := by decide
  exact ⟨by decide, h.1, by rw [h.2.1, htail], htail⟩

/-- The main loop's event stream is unchanged by the panic behaviour of the
detached trace tasks (and by the task numbering). -/
theorem runWithTraces_main_eq_processLines (decode : Str → Option AccessLog)
    (cfg : Config) (faults : ℕ → Except Str Unit) :
    ∀ (lines : List Str) (k : ℕ),
      (runWithTraces decode cfg faults lines k).1 = processLines decode cfg lines := by
  intro lines
  induction lines with
  | nil => intro k; rfl
  | cons line rest ih =>
      intro k
      by_cases hl : trimSpace line = []
      · simp [runWithTraces, processLines, hl, ih]
      · cases hdec : decode (trimSpace line) with
        | none => simp [runWithTraces, processLines, hl, hdec, ih]
        | some a => simp [runWithTraces, processLines, hl, hdec, ih]

/-- No panic escapes a detached trace task's boundary. -/
theorem runWithTraces_no_escape (decode : Str → Option AccessLog)
    (cfg : Config) (faults : ℕ → Except Str Unit) :
    ∀ (lines : List Str) (k : ℕ),
      ∀ r ∈ (runWithTraces decode cfg faults lines k).2, r.escaped = none := by
  intro lines
  induction lines with
  | nil => intro k r hr; simp [runWithTraces] at hr
  | cons line rest ih =>
      intro k r hr
      by_cases hl : trimSpace line = []
      · rw [runWithTraces, if_pos hl] at hr
        exact ih k r hr
      · cases hdec : decode (trimSpace line) with
        | none =>
            rw [runWithTraces, if_neg hl] at hr
            simp only [hdec] at hr
            exact ih k r hr
        | some a =>
            rw [runWithTraces, if_neg hl] at hr
            simp only [hdec] at hr
            rcases List.mem_cons.mp hr with h | h
            · subst h
              cases hb : faults k <;> simp [traceTaskBoundary]
            · exact ih (k + 1) r h

/-- C8: a panic raised inside a detached trace-submission task is caught at
the task boundary and logged (`recover` turns it into the recovery log
line, and nothing escapes), and for every fault behaviour of the detached
tasks the main tailing/processing loop produces exactly the same events —
faults never propagate to or terminate the main loop. -/
theorem trace_task_fault_contained (decode : Str → Option AccessLog)
    (cfg : Config) (f g : ℕ → Except Str Unit) (lines : List Str) (k j : ℕ) :
    (runWithTraces decode cfg f lines k).1 = (runWithTraces decode cfg g lines j).1
    ∧ (∀ r ∈ (runWithTraces decode cfg f lines k).2, r.escaped = none)
    ∧ (∀ p : Str,
        traceTaskBoundary (.error p) = { logs := [recoverMsg p], escaped := none })
    ∧ traceTaskBoundary (.ok ()) = { logs := [], escaped := none } := by
  refine ⟨?_, runWithTraces_no_escape decode cfg f lines k, fun p => rfl, rfl⟩
  rw [runWithTraces_main_eq_processLines, runWithTraces_main_eq_processLines]

/-- Witness for `trace_task_fault_contained`: over two lines (one of which
decodes), a run whose first trace task panics with `"boom"` yields the same
main-loop events as a run whose tasks all succeed, and the panicking task's
boundary reports the recovery log with nothing escaping. -/
theorem trace_task_fault_contained_witness :
    (runWithTraces (fun _ => some {}) ⟨"s".data, "e".data, "v".data, 1/2⟩
        (fun _ => .error "boom".data) ["x".data] 0).1
      = (runWithTraces (fun _ => some {}) ⟨"s".data, "e".data, "v".data, 1/2⟩
        (fun _ => .ok ()) ["x".data] 5).1
    ∧ ∀ r ∈ (runWithTraces (fun _ => some {}) ⟨"s".data, "e".data, "v".data, 1/2⟩
        (fun _ => .error "boom".data) ["x".data] 0).2, r.escaped = none :=
  ⟨(trace_task_fault_contained (fun _ => some {}) ⟨"s".data, "e".data, "v".data, 1/2⟩
      (fun _ => .error "boom".data) (fun _ => .ok ()) ["x".data] 0 5).1,
   (trace_task_fault_contained (fun _ => some {}) ⟨"s".data, "e".data, "v".data, 1/2⟩
      (fun _ => .error "boom".data) (fun _ => .ok ()) ["x".data] 0 5).2.1⟩

/-- The configuration used by concrete examples: the source defaults
(service, environment, version, apdex threshold 0.5 s). -/
def exConfig : Config :=
  { serviceName := "traefik-cfs-staging-echo".data, environment := "staging".data,
    version := "3.6.7".data, apdexThreshold := 1/2 }

/-- C6 counterexample: the malformed 7-character line `"notjson"` produces
exactly one diagnostic event whose offending-content field is the whole
line `"notjson"` — not the claimed "first 80 characters plus an ellipsis
marker": `truncate` appends `"..."` only when the content exceeds 80
characters, so the diagnostic for this line carries no ellipsis marker. -/
theorem decode_failure_diag_no_ellipsis_counterexample :
    processLines (fun _ => none) exConfig ["notjson".data]
      = [Event.diag "notjson".data]
    ∧ truncate "notjson".data 80 = "notjson".data
    ∧ "notjson".data ≠ ("notjson".data).take 80 ++ "...".data
    ∧ '.' ∉ ("notjson".data : Str) := by
  refine ⟨?_, by decide, by decide, by decide⟩
  have h : trimSpace "notjson".data = "notjson".data := by decide
  simp [processLines, h, truncate]

/-- C6 (amended): a malformed (non-decodable) nonempty line contributes
exactly one diagnostic event — carrying the offending content truncated to
its first 80 characters, with the ellipsis marker `"..."` appended only
when the content exceeds 80 characters — emits no metric, and the
remaining lines are processed exactly as they would be on their own. -/
theorem decode_failure_single_diag (decode : Str → Option AccessLog)
    (cfg : Config) (line : Str) (rest : List Str)
    (hdec : decode (trimSpace line) = none) (hne : trimSpace line ≠ []) :
    processLines decode cfg (line :: rest)
      = Event.diag (truncate (trimSpace line) 80) :: processLines decode cfg rest
    ∧ ((trimSpace line).length ≤ 80 → truncate (trimSpace line) 80 = trimSpace line)
    ∧ (80 < (trimSpace line).length →
        truncate (trimSpace line) 80 = (trimSpace line).take 80 ++ "...".data) := by
  refine ⟨?_, fun h => by simp [truncate, h], fun h => by simp [truncate, Nat.not_le.mpr h]⟩
  simp [processLines, hne, hdec]

/-- Witness for `decode_failure_single_diag`: with a decoder rejecting
everything, the line `"notjson"` followed by `"next"` yields one diagnostic
followed by the processing of `"next"` alone, and its 7-character content
is carried whole. -/
theorem decode_failure_single_diag_witness :
    processLines (fun _ => none) exConfig ["notjson".data, "next".data]
      = Event.diag (truncate (trimSpace "notjson".data) 80)
          :: processLines (fun _ => none) exConfig ["next".data]
    ∧ truncate (trimSpace "notjson".data) 80 = trimSpace "notjson".data :=
  ⟨(decode_failure_single_diag (fun _ => none) exConfig "notjson".data
      ["next".data] rfl (by decide)).1,
   (decode_failure_single_diag (fun _ => none) exConfig "notjson".data
      ["next".data] rfl (by decide)).2.1 (by decide)⟩

/-- The span built for one record, wired as at the call site
(main.go line 272): `sendTraceNative(cfg, accessLog, hostname, statusCode,
durationMs)` with the normalized fields. -/
def nativeSpanOf (a : AccessLog) (now : Int) : NativeSpan :=
  sendTraceNative a (normalizedHostname a) (normalizedStatus a) (durationMsOf a) now

/-- A 404 record as decoded from a Traefik access-log line. -/
def exRecord404 : AccessLog :=
  { requestHost := "api.example.io".data, requestMethod := "GET".data,
    requestPath := "/missing".data, downstreamStatus := 404, duration := 1500000 }

/-- C7 counterexample: for the 404 record, the span constructed by the
converged native-tracer variant carries exactly the attribute keys
`http.method`, `http.url`, `http.status_code`, `http.host`,
`peer.hostname`, `error`, `error.type` — no duration attribute and no
service/env/version attributes (those live in the tracer's global
configuration), and the HTTP error is flagged at the span level via the
`error:true` tag rather than being carried only as a neutral attribute. -/
theorem nativeSpan_attributes_counterexample :
    (nativeSpanOf exRecord404 1000000000).tags.map Prod.fst
      = ["http.method".data, "http.url".data, "http.status_code".data,
         "http.host".data, "peer.hostname".data, "error".data, "error.type".data]
    ∧ ("error".data, TagVal.bool true) ∈ (nativeSpanOf exRecord404 1000000000).tags
    ∧ ("error.type".data, TagVal.str "client_error".data)
        ∈ (nativeSpanOf exRecord404 1000000000).tags
    ∧ "http.request.duration".data
        ∉ ((nativeSpanOf exRecord404 1000000000).tags.map Prod.fst)
    ∧ "service".data ∉ ((nativeSpanOf exRecord404 1000000000).tags.map Prod.fst)
    ∧ "env".data ∉ ((nativeSpanOf exRecord404 1000000000).tags.map Prod.fst)
    ∧ "version".data ∉ ((nativeSpanOf exRecord404 1000000000).tags.map Prod.fst) := by
  refine ⟨?_, ?_, ?_, ?_, ?_, ?_, ?_⟩ <;> decide

/-- C7 (amended): the native-tracer span starts at `now` minus the duration
truncated to whole milliseconds and finishes at `now` (so its extent is the
truncated duration), and carries method, url/path, status code and hostname
as attributes; for status ≥ 400 it is additionally tagged `error:true` with
an `error.type`, while below 400 it carries exactly the five base
attributes. The superseded OTLP variant's span has
`end = start + duration`, status code 0 regardless of the HTTP status, and
carries method, url, status code, duration and service/env/version as
attributes. -/
theorem trace_span_construction (a : AccessLog) (now startNano : Int)
    (sname envname vname host method url : Str) (st : Int) (dms : ℚ) :
    (nativeSpanOf a now).startNano = now - truncInt (durationMsOf a) * 1000000
    ∧ (nativeSpanOf a now).finishNano = now
    ∧ (nativeSpanOf a now).finishNano - (nativeSpanOf a now).startNano
        = truncInt (durationMsOf a) * 1000000
    ∧ ("http.method".data, TagVal.str a.requestMethod) ∈ (nativeSpanOf a now).tags
    ∧ ("http.url".data, TagVal.str a.requestPath) ∈ (nativeSpanOf a now).tags
    ∧ ("http.status_code".data, TagVal.int (normalizedStatus a)) ∈ (nativeSpanOf a now).tags
    ∧ ("http.host".data, TagVal.str (normalizedHostname a)) ∈ (nativeSpanOf a now).tags
    ∧ (400 ≤ normalizedStatus a →
        ("error".data, TagVal.bool true) ∈ (nativeSpanOf a now).tags)
    ∧ (¬ 400 ≤ normalizedStatus a →
        (nativeSpanOf a now).tags.map Prod.fst
          = ["http.method".data, "http.url".data, "http.status_code".data,
             "http.host".data, "peer.hostname".data])
    ∧ (sendTraceOtlp sname envname vname host method url st startNano dms).statusCode = 0
    ∧ (sendTraceOtlp sname envname vname host method url st startNano dms).endNano
        = startNano + truncInt (dms * 1000000)
    ∧ ("http.request.duration".data, AttrVal.double dms)
        ∈ (sendTraceOtlp sname envname vname host method url st startNano dms).attributes
    ∧ ("service".data, AttrVal.str sname)
        ∈ (sendTraceOtlp sname envname vname host method url st startNano dms).attributes
    ∧ ("env".data, AttrVal.str envname)
        ∈ (sendTraceOtlp sname envname vname host method url st startNano dms).attributes
    ∧ ("version".data, AttrVal.str vname)
        ∈ (sendTraceOtlp sname envname vname host method url st startNano dms).attributes
    ∧ ("http.status_code".data, AttrVal.int (itoa st))
        ∈ (sendTraceOtlp sname envname vname host method url st startNano dms).attributes := by
  refine ⟨rfl, rfl, by simp [nativeSpanOf, sendTraceNative], ?_, ?_, ?_, ?_,
    fun h => ?_, fun h => ?_, rfl, rfl, ?_, ?_, ?_, ?_, ?_⟩
  · simp [nativeSpanOf, sendTraceNative]
  · simp [nativeSpanOf, sendTraceNative]
  · simp [nativeSpanOf, sendTraceNative]
  · simp [nativeSpanOf, sendTraceNative]
  · simp [nativeSpanOf, sendTraceNative, h]
  · simp [nativeSpanOf, sendTraceNative, h]
  · simp [sendTraceOtlp]
  · simp [sendTraceOtlp]
  · simp [sendTraceOtlp]
  · simp [sendTraceOtlp]
  · simp [sendTraceOtlp]

/-- Witness for `trace_span_construction`: at the concrete 404 record the
error tag is present, and at a 200 record the tag list is exactly the five
base attributes. -/
theorem trace_span_construction_witness :
    ("error".data, TagVal.bool true) ∈ (nativeSpanOf exRecord404 7).tags
    ∧ (nativeSpanOf { downstreamStatus := 200 } 7).tags.map Prod.fst
        = ["http.method".data, "http.url".data, "http.status_code".data,
           "http.host".data, "peer.hostname".data] :=
  ⟨(trace_span_construction exRecord404 7 0 [] [] [] [] [] [] 0 0).2.2.2.2.2.2.2.1
      (by decide),
   (trace_span_construction { downstreamStatus := 200 } 7 0 [] [] [] [] [] [] 0 0
      ).2.2.2.2.2.2.2.2.1 (by decide)⟩

/-- The `status:<code>` tag textually appended after the joined tag set in
the `by_http_status` format strings. -/
def statusTagOf (code : Str) : Str := "status:".data ++ code

theorem joinTags_singleton (x : Str) : joinTags [x] = x := by
  simp [joinTags, List.intercalate]

theorem joinTags_cons_cons (a b : Str) (l : List Str) :
    joinTags (a :: b :: l) = a ++ ",".data ++ joinTags (b :: l) := by
  simp [joinTags, List.intercalate, List.append_assoc]

theorem joinTags_concat (t x : Str) (l : List Str) :
    joinTags ((t :: l) ++ [x]) = joinTags (t :: l) ++ ",".data ++ x := by
  induction l generalizing t with
  | nil => simp [joinTags_cons_cons, joinTags_singleton]
  | cons b l ih =>
      calc joinTags ((t :: b :: l) ++ [x])
          = t ++ ",".data ++ joinTags ((b :: l) ++ [x]) := by
            simpa using joinTags_cons_cons t b (l ++ [x])
        _ = t ++ ",".data ++ (joinTags (b :: l) ++ ",".data ++ x) := by rw [ih b]
        _ = joinTags (t :: b :: l) ++ ",".data ++ x := by
            rw [joinTags_cons_cons]; simp [List.append_assoc]

/-- The emitted metric lines, written in `name:value|type|#tags` shape:
the five base lines of `sendMetrics` and, when the status is an error, the
two error counters, with `status:<code>` as an extra trailing tag on the
`by_http_status` lines. -/
theorem processLogLine_metrics_shape (cfg : Config) (a : AccessLog) :
    (processLogLine cfg a).metrics =
      [ metricLine "trace.traefik.request.hits".data "1".data "c".data
          (processLogLine cfg a).tags,
        metricLine "trace.traefik.request.hits.by_http_status".data "1".data "c".data
          ((processLogLine cfg a).tags ++ [statusTagOf (itoa (normalizedStatus a))]),
        metricLine "trace.traefik.request.duration".data (fmt2 (durationMsOf a)) "h".data
          (processLogLine cfg a).tags,
        metricLine "trace.traefik.request.duration.by_http_status".data
          (fmt2 (durationMsOf a)) "h".data
          ((processLogLine cfg a).tags ++ [statusTagOf (itoa (normalizedStatus a))]),
        metricLine "trace.traefik.request.apdex".data
          (fmt2 (apdexScore cfg.apdexThreshold (durationMsOf a))) "g".data
          (processLogLine cfg a).tags ]
      ++ (if 400 ≤ normalizedStatus a then
          [ metricLine "trace.traefik.request.errors".data "1".data "c".data
              (processLogLine cfg a).tags,
            metricLine "trace.traefik.request.errors.by_http_status".data "1".data "c".data
              ((processLogLine cfg a).tags ++ [statusTagOf (itoa (normalizedStatus a))]) ]
          else []) := by
  have s1 : ("trace.traefik.request.hits:1|c|#".data : Str)
      = "trace.traefik.request.hits".data ++ ":".data ++ "1".data ++ "|".data
        ++ "c".data ++ "|#".data := by decide
  have s2 : ("trace.traefik.request.hits.by_http_status:1|c|#".data : Str)
      = "trace.traefik.request.hits.by_http_status".data ++ ":".data ++ "1".data
        ++ "|".data ++ "c".data ++ "|#".data := by decide
  have s3 : ("trace.traefik.request.duration:".data : Str)
      = "trace.traefik.request.duration".data ++ ":".data := by decide
  have s4 : ("trace.traefik.request.duration.by_http_status:".data : Str)
      = "trace.traefik.request.duration.by_http_status".data ++ ":".data := by decide
  have s5 : ("trace.traefik.request.apdex:".data : Str)
      = "trace.traefik.request.apdex".data ++ ":".data := by decide
  have s6 : ("trace.traefik.request.errors:1|c|#".data : Str)
      = "trace.traefik.request.errors".data ++ ":".data ++ "1".data ++ "|".data
        ++ "c".data ++ "|#".data := by decide
  have s7 : ("trace.traefik.request.errors.by_http_status:1|c|#".data : Str)
      = "trace.traefik.request.errors.by_http_status".data ++ ":".data ++ "1".data
        ++ "|".data ++ "c".data ++ "|#".data := by decide
  have s8 : ("|h|#".data : Str) = "|".data ++ "h".data ++ "|#".data := by decide
  have s9 : ("|g|#".data : Str) = "|".data ++ "g".data ++ "|#".data := by decide
  have s10 : (",status:".data : Str) = ",".data ++ "status:".data := by decide
  by_cases h : 400 ≤ normalizedStatus a
  · have hb : decide (400 ≤ normalizedStatus a) = true := decide_eq_true h
    simp only [processLogLine, sendMetrics, baseMetrics, errorMetrics, hb, if_pos h,
      if_true, metricLine, statusTagOf, processTags, joinTags_cons_cons,
      joinTags_singleton, s1, s2, s3, s4, s5, s6, s7, s8, s9, s10,
      List.append_assoc, List.cons_append, List.nil_append, List.append_nil]
  · have hb : decide (400 ≤ normalizedStatus a) = false := decide_eq_false h
    simp [processLogLine, sendMetrics, baseMetrics, errorMetrics, hb, if_neg h,
      metricLine, statusTagOf, processTags, joinTags_cons_cons,
      joinTags_singleton, s1, s2, s3, s4, s5, s6, s7, s8, s9, s10,
      List.append_assoc]

/-- A 200 record matching `exRecord404` apart from the status. -/
def exRecord200 : AccessLog :=
  { requestHost := "api.example.io".data, requestMethod := "GET".data,
    requestPath := "/ok".data, downstreamStatus := 200, duration := 2000000 }

/-- C3: for every normalized request the emitter sends exactly the five base
statistics lines (hits counter 1, hits.by_http_status counter 1 with
`status:<code>`, duration histogram, duration.by_http_status histogram with
`status:<code>`, apdex gauge), each in the shape `name:value|type|#tags`,
plus the two error counters exactly when the normalized status is ≥ 400:
seven lines for an error status, and exactly the five base lines (neither
error counter) otherwise. -/
theorem sendMetrics_five_plus_error_lines (cfg : Config) (a : AccessLog) :
    (processLogLine cfg a).metrics =
      [ metricLine "trace.traefik.request.hits".data "1".data "c".data
          (processLogLine cfg a).tags,
        metricLine "trace.traefik.request.hits.by_http_status".data "1".data "c".data
          ((processLogLine cfg a).tags ++ [statusTagOf (itoa (normalizedStatus a))]),
        metricLine "trace.traefik.request.duration".data (fmt2 (durationMsOf a)) "h".data
          (processLogLine cfg a).tags,
        metricLine "trace.traefik.request.duration.by_http_status".data
          (fmt2 (durationMsOf a)) "h".data
          ((processLogLine cfg a).tags ++ [statusTagOf (itoa (normalizedStatus a))]),
        metricLine "trace.traefik.request.apdex".data
          (fmt2 (apdexScore cfg.apdexThreshold (durationMsOf a))) "g".data
          (processLogLine cfg a).tags ]
      ++ (if 400 ≤ normalizedStatus a then
          [ metricLine "trace.traefik.request.errors".data "1".data "c".data
              (processLogLine cfg a).tags,
            metricLine "trace.traefik.request.errors.by_http_status".data "1".data "c".data
              ((processLogLine cfg a).tags ++ [statusTagOf (itoa (normalizedStatus a))]) ]
          else [])
    ∧ (processLogLine cfg a).metrics.length
        = (if 400 ≤ normalizedStatus a then 7 else 5)
    ∧ (400 ≤ normalizedStatus a →
        metricLine "trace.traefik.request.errors".data "1".data "c".data
          (processLogLine cfg a).tags ∈ (processLogLine cfg a).metrics
        ∧ metricLine "trace.traefik.request.errors.by_http_status".data "1".data "c".data
          ((processLogLine cfg a).tags ++ [statusTagOf (itoa (normalizedStatus a))])
          ∈ (processLogLine cfg a).metrics)
    ∧ (¬ 400 ≤ normalizedStatus a →
        (processLogLine cfg a).metrics =
          [ metricLine "trace.traefik.request.hits".data "1".data "c".data
              (processLogLine cfg a).tags,
            metricLine "trace.traefik.request.hits.by_http_status".data "1".data "c".data
              ((processLogLine cfg a).tags ++ [statusTagOf (itoa (normalizedStatus a))]),
            metricLine "trace.traefik.request.duration".data (fmt2 (durationMsOf a))
              "h".data (processLogLine cfg a).tags,
            metricLine "trace.traefik.request.duration.by_http_status".data
              (fmt2 (durationMsOf a)) "h".data
              ((processLogLine cfg a).tags ++ [statusTagOf (itoa (normalizedStatus a))]),
            metricLine "trace.traefik.request.apdex".data
              (fmt2 (apdexScore cfg.apdexThreshold (durationMsOf a))) "g".data
              (processLogLine cfg a).tags ]) := by
  have H := processLogLine_metrics_shape cfg a
  refine ⟨H, ?_, fun h => ?_, fun h => ?_⟩
  · rw [H]
    by_cases h : 400 ≤ normalizedStatus a <;> simp [h]
  · rw [H]
    constructor <;> simp [h]
  · rw [H]
    simp [h]

/-- Witness for `sendMetrics_five_plus_error_lines`: the 404 record emits
both error counters; the 200 record's emission is exactly the five base
lines, so it emits neither error counter. -/
theorem sendMetrics_five_plus_error_lines_witness :
    (metricLine "trace.traefik.request.errors".data "1".data "c".data
        (processLogLine exConfig exRecord404).tags
      ∈ (processLogLine exConfig exRecord404).metrics
    ∧ metricLine "trace.traefik.request.errors.by_http_status".data "1".data "c".data
        ((processLogLine exConfig exRecord404).tags
          ++ [statusTagOf (itoa (normalizedStatus exRecord404))])
      ∈ (processLogLine exConfig exRecord404).metrics)
    ∧ (processLogLine exConfig exRecord404).metrics.length = 7
    ∧ (processLogLine exConfig exRecord200).metrics =
      [ metricLine "trace.traefik.request.hits".data "1".data "c".data
          (processLogLine exConfig exRecord200).tags,
        metricLine "trace.traefik.request.hits.by_http_status".data "1".data "c".data
          ((processLogLine exConfig exRecord200).tags
            ++ [statusTagOf (itoa (normalizedStatus exRecord200))]),
        metricLine "trace.traefik.request.duration".data (fmt2 (durationMsOf exRecord200))
          "h".data (processLogLine exConfig exRecord200).tags,
        metricLine "trace.traefik.request.duration.by_http_status".data
          (fmt2 (durationMsOf exRecord200)) "h".data
          ((processLogLine exConfig exRecord200).tags
            ++ [statusTagOf (itoa (normalizedStatus exRecord200))]),
        metricLine "trace.traefik.request.apdex".data
          (fmt2 (apdexScore exConfig.apdexThreshold (durationMsOf exRecord200))) "g".data
          (processLogLine exConfig exRecord200).tags ] := by
  refine ⟨(sendMetrics_five_plus_error_lines exConfig exRecord404).2.2.1 (by decide),
    ?_, (sendMetrics_five_plus_error_lines exConfig exRecord200).2.2.2 (by decide)⟩
  have h := (sendMetrics_five_plus_error_lines exConfig exRecord404).2.1
  rw [h, if_pos (by decide)]

end TraefikDatadog
